import Mathlib

/-!
Verification of the multi-currency WACC calculator core
(`src/WACC-Calculator.py`, final fixed version).

Modelling conventions:
* Python floats are modelled as rationals (`ℚ`).
* The Yahoo-Finance market-data source is a function `String → Option ℚ`
  from a ticker symbol to the most recent closing price; `none` models an
  empty history or a raised/timed-out remote call.
* Streamlit UI side effects are made explicit: `st_warnings` / `st_errors`
  fields collect the messages emitted via `st.warning` / `st.error`.
  The numeric value a Python caller receives is the `rate` field alone.
* Widget inputs (amounts, cost percentages, manual FX overrides) are the
  fields of `SourceInput`; `fx_input = none` means the user left the FX
  number-input at its auto-fetched (or projected) default value.
-/

namespace WACCCalc

/-- Result of `get_fx_rate`: the returned float, the tickers sent to the
market-data source, and the messages emitted to the UI via `st.warning`. -/
structure FxResult where
  rate : ℚ
  queried : List String
  st_warnings : List String
deriving DecidableEq

/-- Embedding of `get_fx_rate(home_curr, foreign_curr)`: how many home-currency
units per one foreign unit.  Direct pair `FOREIGN+HOME=X` first (accepted only
if positive), then the reverse pair inverted, else a warning and `1.0`. -/
def get_fx_rate (fetch : String → Option ℚ) (home_curr foreign_curr : String) :
    FxResult :=
  if home_curr = foreign_curr then
    { rate := 1, queried := [], st_warnings := [] }
  else
    let ticker := foreign_curr ++ home_curr ++ "=X"
    let ticker_rev := home_curr ++ foreign_curr ++ "=X"
    let fallback : FxResult :=
      { rate := 1, queried := [ticker, ticker_rev],
        st_warnings := ["Could not fetch FX rate for " ++ foreign_curr ++ "/" ++
          home_curr ++ ". Please enter rate manually."] }
    let try_rev : FxResult :=
      match fetch ticker_rev with
      | some rate_rev =>
          if 0 < rate_rev then
            { rate := 1 / rate_rev, queried := [ticker, ticker_rev], st_warnings := [] }
          else fallback
      | none => fallback
    match fetch ticker with
    | some rate =>
        if 0 < rate then { rate := rate, queried := [ticker], st_warnings := [] }
        else try_rev
    | none => try_rev

/-- One row of widget inputs for a capital source inside
`render_capital_sources`.  `fx_input = some v` is a manual override of the FX
number-input; `none` keeps the auto-fetched (possibly projected) default. -/
structure SourceInput where
  currency : String
  raw_amount : ℚ
  fx_input : Option ℚ
  cost_pct : ℚ
deriving DecidableEq

/-- The FX growth projection applied inside `render_capital_sources`:
`projected_rate = live_rate * ((1 + fx_growth_rate) ** fx_time_horizon)`. -/
def project_rate (rate fx_growth_rate : ℚ) (fx_time_horizon : ℕ) : ℚ :=
  rate * (1 + fx_growth_rate) ^ fx_time_horizon

/-- The value standing in the FX number-input for a foreign-currency source:
the manual override if present, otherwise the auto-fetched live rate,
growth-projected when `use_fx_growth` is on and the growth rate is nonzero. -/
def effective_fx_input (fetch : String → Option ℚ) (home_currency : String)
    (use_fx_growth : Bool) (fx_growth_rate : ℚ) (fx_time_horizon : ℕ)
    (s : SourceInput) : ℚ :=
  let live_rate := (get_fx_rate fetch home_currency s.currency).rate
  let default_fx_rate :=
    if use_fx_growth = true ∧ fx_growth_rate ≠ 0 then
      project_rate live_rate fx_growth_rate fx_time_horizon
    else live_rate
  s.fx_input.getD default_fx_rate

/-- Per-source outcome of one iteration of the `render_capital_sources` loop:
the effective FX rate after validation, the converted home-currency value, the
cost rate (fraction), and the messages emitted via `st.error`. -/
structure SourceOutcome where
  fx_rate : ℚ
  home_value : ℚ
  cost_rate : ℚ
  st_errors : List String
deriving DecidableEq

/-- One iteration of the source loop in `render_capital_sources` (0-based
index `i`): same-currency sources convert 1:1 with no resolver call; foreign
sources use the effective FX input, rejecting a non-positive rate by
substituting `1.0` and emitting an `st.error` naming source `i+1`. -/
def process_source (fetch : String → Option ℚ) (home_currency : String)
    (use_fx_growth : Bool) (fx_growth_rate : ℚ) (fx_time_horizon : ℕ)
    (i : ℕ) (s : SourceInput) : SourceOutcome :=
  if s.currency ≠ home_currency then
    let entered :=
      effective_fx_input fetch home_currency use_fx_growth fx_growth_rate
        fx_time_horizon s
    if entered ≤ 0 then
      { fx_rate := 1, home_value := s.raw_amount * 1, cost_rate := s.cost_pct / 100,
        st_errors := ["Invalid FX rate for source " ++ toString (i + 1) ++
          ". Must be > 0."] }
    else
      { fx_rate := entered, home_value := s.raw_amount * entered,
        cost_rate := s.cost_pct / 100, st_errors := [] }
  else
    { fx_rate := 1, home_value := s.raw_amount, cost_rate := s.cost_pct / 100,
      st_errors := [] }

/-- The list of per-source outcomes produced by the loop, starting at index
`i`. -/
def source_outcomes (fetch : String → Option ℚ) (home_currency : String)
    (use_fx_growth : Bool) (fx_growth_rate : ℚ) (fx_time_horizon : ℕ) :
    ℕ → List SourceInput → List SourceOutcome
  | _, [] => []
  | i, s :: rest =>
      process_source fetch home_currency use_fx_growth fx_growth_rate
          fx_time_horizon i s ::
        source_outcomes fetch home_currency use_fx_growth fx_growth_rate
          fx_time_horizon (i + 1) rest

/-- The accumulation loop of `render_capital_sources`: returns
`(total_value, total_weighted_cost, emitted st.error messages)`. -/
def render_loop (fetch : String → Option ℚ) (home_currency : String)
    (use_fx_growth : Bool) (fx_growth_rate : ℚ) (fx_time_horizon : ℕ) :
    ℕ → List SourceInput → ℚ × ℚ × List String
  | _, [] => (0, 0, [])
  | i, s :: rest =>
      let o := process_source fetch home_currency use_fx_growth fx_growth_rate
        fx_time_horizon i s
      let r := render_loop fetch home_currency use_fx_growth fx_growth_rate
        fx_time_horizon (i + 1) rest
      (o.home_value + r.1, o.home_value * o.cost_rate + r.2.1,
        o.st_errors ++ r.2.2)

/-- Embedding of `render_capital_sources`: aggregates the ordered source rows
into `(total_value, total_weighted_cost, emitted st.error messages)`. -/
def render_capital_sources (fetch : String → Option ℚ) (home_currency : String)
    (use_fx_growth : Bool) (fx_growth_rate : ℚ) (fx_time_horizon : ℕ)
    (sources : List SourceInput) : ℚ × ℚ × List String :=
  render_loop fetch home_currency use_fx_growth fx_growth_rate fx_time_horizon
    0 sources

/-- All inputs of one compute cycle of the main app: the market-data source,
the sidebar settings and the capital-source rows. -/
structure Inputs where
  fetch : String → Option ℚ
  home_currency : String
  equity_sources : List SourceInput
  debt_sources : List SourceInput
  tax_rate : ℚ
  use_fx_growth : Bool
  fx_growth_rate : ℚ
  fx_time_horizon : ℕ

/-- `equity_value` of the main flow. -/
def equity_value (inp : Inputs) : ℚ :=
  (render_capital_sources inp.fetch inp.home_currency inp.use_fx_growth
    inp.fx_growth_rate inp.fx_time_horizon inp.equity_sources).1

/-- `equity_weighted_cost` of the main flow. -/
def equity_weighted_cost (inp : Inputs) : ℚ :=
  (render_capital_sources inp.fetch inp.home_currency inp.use_fx_growth
    inp.fx_growth_rate inp.fx_time_horizon inp.equity_sources).2.1

/-- `debt_value` of the main flow. -/
def debt_value (inp : Inputs) : ℚ :=
  (render_capital_sources inp.fetch inp.home_currency inp.use_fx_growth
    inp.fx_growth_rate inp.fx_time_horizon inp.debt_sources).1

/-- `debt_weighted_cost` of the main flow. -/
def debt_weighted_cost (inp : Inputs) : ℚ :=
  (render_capital_sources inp.fetch inp.home_currency inp.use_fx_growth
    inp.fx_growth_rate inp.fx_time_horizon inp.debt_sources).2.1

/-- `cost_of_equity = equity_weighted_cost / equity_value` guarded by
`equity_value > 0`, else `0.0`. -/
def cost_of_equity (inp : Inputs) : ℚ :=
  if 0 < equity_value inp then equity_weighted_cost inp / equity_value inp
  else 0

/-- `cost_of_debt = debt_weighted_cost / debt_value` guarded by
`debt_value > 0`, else `0.0`. -/
def cost_of_debt (inp : Inputs) : ℚ :=
  if 0 < debt_value inp then debt_weighted_cost inp / debt_value inp
  else 0

/-- `total_firm_value = equity_value + debt_value`. -/
def total_firm_value (inp : Inputs) : ℚ :=
  equity_value inp + debt_value inp

/-- `equity_weight = equity_value / total_firm_value`. -/
def equity_weight (inp : Inputs) : ℚ :=
  equity_value inp / total_firm_value inp

/-- `debt_weight = debt_value / total_firm_value`. -/
def debt_weight (inp : Inputs) : ℚ :=
  debt_value inp / total_firm_value inp

/-- `tax_shield = 1 - tax_rate`. -/
def tax_shield (inp : Inputs) : ℚ :=
  1 - inp.tax_rate

/-- `wacc = (equity_weight * cost_of_equity) + (debt_weight * cost_of_debt *
tax_shield)`. -/
def wacc (inp : Inputs) : ℚ :=
  equity_weight inp * cost_of_equity inp +
    debt_weight inp * cost_of_debt inp * tax_shield inp

/-- The derived figures of one compute cycle, as displayed by the app. -/
structure WACCResult where
  equity_value : ℚ
  cost_of_equity : ℚ
  debt_value : ℚ
  cost_of_debt : ℚ
  tax_rate : ℚ
  equity_weight : ℚ
  debt_weight : ℚ
  tax_shield : ℚ
  wacc : ℚ
deriving DecidableEq

/-- The record of derived figures for a cycle whose total firm value is
nonzero. -/
def cycle_result (inp : Inputs) : WACCResult :=
  { equity_value := equity_value inp, cost_of_equity := cost_of_equity inp,
    debt_value := debt_value inp, cost_of_debt := cost_of_debt inp,
    tax_rate := inp.tax_rate, equity_weight := equity_weight inp,
    debt_weight := debt_weight inp, tax_shield := tax_shield inp,
    wacc := wacc inp }

/-- The main flow after aggregation: `if total_firm_value == 0` the app warns
and calls `st.stop()`, producing no WACC (`none`); otherwise the full result
record. -/
def compute_cycle (inp : Inputs) : Option WACCResult :=
  if total_firm_value inp = 0 then none
  else some (cycle_result inp)

/-- The post-computation anomaly checks on the final WACC:
`st.error` when `wacc < 0`, `st.warning` when `wacc > 1.0`, else nothing. -/
def anomaly_check (w : ℚ) : Option String :=
  if w < 0 then some "Negative WACC detected."
  else if 1 < w then some "WACC exceeds 100 percent."
  else none

/-- A market-data attempt fails when the history is empty / the call raised
(`none`) or the returned price is non-positive. -/
def quote_fails (q : Option ℚ) : Prop :=
  q = none ∨ ∃ r : ℚ, q = some r ∧ r ≤ 0

/-- Scenario 1 of the spec: equity 500,000 at 10% and debt 500,000 at 5%,
both in the home currency USD, tax rate 20%. -/
def scenario1 : Inputs :=
  { fetch := fun _ => none, home_currency := "USD",
    equity_sources := [⟨"USD", 500000, none, 10⟩],
    debt_sources := [⟨"USD", 500000, none, 5⟩],
    tax_rate := 20 / 100, use_fx_growth := false, fx_growth_rate := 0,
    fx_time_horizon := 1 }

/-- A compute cycle with a single zero-principal equity source and no debt
sources. -/
def scenario_zero : Inputs :=
  { fetch := fun _ => none, home_currency := "USD",
    equity_sources := [⟨"USD", 0, none, 10⟩],
    debt_sources := [], tax_rate := 21 / 100, use_fx_growth := false,
    fx_growth_rate := 0, fx_time_horizon := 1 }

/-- Scenario 3 of the spec: zero equity sources and zero debt sources. -/
def scenario3 : Inputs :=
  { fetch := fun _ => none, home_currency := "USD", equity_sources := [],
    debt_sources := [], tax_rate := 21 / 100, use_fx_growth := false,
    fx_growth_rate := 0, fx_time_horizon := 1 }

/-- A foreign-denominated source carrying a manual FX override of −2. -/
def bad_source : SourceInput :=
  { currency := "EUR", raw_amount := 1000, fx_input := some (-2), cost_pct := 5 }

lemma get_fx_rate_of_direct (fetch : String → Option ℚ) (home foreign : String)
    (r : ℚ) (hne : home ≠ foreign)
    (hd : fetch (foreign ++ home ++ "=X") = some r) (hr : 0 < r) :
    get_fx_rate fetch home foreign =
      { rate := r, queried := [foreign ++ home ++ "=X"], st_warnings := [] } := by
  simp only [get_fx_rate, if_neg hne, hd]
  rw [if_pos hr]

lemma get_fx_rate_of_inverse (fetch : String → Option ℚ) (home foreign : String)
    (p : ℚ) (hne : home ≠ foreign)
    (hd : quote_fails (fetch (foreign ++ home ++ "=X")))
    (hi : fetch (home ++ foreign ++ "=X") = some p) (hp : 0 < p) :
    get_fx_rate fetch home foreign =
      { rate := 1 / p,
        queried := [foreign ++ home ++ "=X", home ++ foreign ++ "=X"],
        st_warnings := [] } := by
  rcases hd with hd | ⟨r, hd, hr⟩
  · simp only [get_fx_rate, if_neg hne, hd, hi]
    rw [if_pos hp]
  · simp only [get_fx_rate, if_neg hne, hd, hi]
    rw [if_neg (not_lt.mpr hr), if_pos hp]

lemma get_fx_rate_of_failure (fetch : String → Option ℚ) (home foreign : String)
    (hne : home ≠ foreign)
    (hd : quote_fails (fetch (foreign ++ home ++ "=X")))
    (hi : quote_fails (fetch (home ++ foreign ++ "=X"))) :
    get_fx_rate fetch home foreign =
      { rate := 1,
        queried := [foreign ++ home ++ "=X", home ++ foreign ++ "=X"],
        st_warnings := ["Could not fetch FX rate for " ++ foreign ++ "/" ++
          home ++ ". Please enter rate manually."] } := by
  rcases hd with hd | ⟨r, hd, hr⟩ <;> rcases hi with hi | ⟨p, hi, hp⟩ <;>
    simp only [get_fx_rate, if_neg hne, hd, hi]
  · rw [if_neg (not_lt.mpr hp)]
  · rw [if_neg (not_lt.mpr hr)]
  · rw [if_neg (not_lt.mpr hr), if_neg (not_lt.mpr hp)]

lemma get_fx_rate_rate_pos (fetch : String → Option ℚ) (home foreign : String) :
    0 < (get_fx_rate fetch home foreign).rate := by
  by_cases hne : home = foreign
  · simp [get_fx_rate, hne]
  · cases hd : fetch (foreign ++ home ++ "=X") with
    | some r =>
        by_cases hr : 0 < r
        · rw [get_fx_rate_of_direct fetch home foreign r hne hd hr]
          exact hr
        · have hdf : quote_fails (fetch (foreign ++ home ++ "=X")) :=
            Or.inr ⟨r, hd, le_of_not_lt hr⟩
          cases hi : fetch (home ++ foreign ++ "=X") with
          | some p =>
              by_cases hp : 0 < p
              · rw [get_fx_rate_of_inverse fetch home foreign p hne hdf hi hp]
                exact one_div_pos.mpr hp
              · rw [get_fx_rate_of_failure fetch home foreign hne hdf
                  (Or.inr ⟨p, hi, le_of_not_lt hp⟩)]
                exact one_pos
          | none =>
              rw [get_fx_rate_of_failure fetch home foreign hne hdf (Or.inl hi)]
              exact one_pos
    | none =>
        have hdf : quote_fails (fetch (foreign ++ home ++ "=X")) := Or.inl hd
        cases hi : fetch (home ++ foreign ++ "=X") with
        | some p =>
            by_cases hp : 0 < p
            · rw [get_fx_rate_of_inverse fetch home foreign p hne hdf hi hp]
              exact one_div_pos.mpr hp
            · rw [get_fx_rate_of_failure fetch home foreign hne hdf
                (Or.inr ⟨p, hi, le_of_not_lt hp⟩)]
              exact one_pos
        | none =>
            rw [get_fx_rate_of_failure fetch home foreign hne hdf (Or.inl hi)]
            exact one_pos

lemma process_source_fx_pos (fetch : String → Option ℚ) (home : String)
    (ug : Bool) (g : ℚ) (hz : ℕ) (i : ℕ) (s : SourceInput) :
    0 < (process_source fetch home ug g hz i s).fx_rate := by
  simp only [process_source]
  split_ifs with h1 h2
  · exact one_pos
  · exact lt_of_not_le h2
  · exact one_pos

lemma process_source_home_value_eq (fetch : String → Option ℚ) (home : String)
    (ug : Bool) (g : ℚ) (hz : ℕ) (i : ℕ) (s : SourceInput) :
    (process_source fetch home ug g hz i s).home_value =
      s.raw_amount * (process_source fetch home ug g hz i s).fx_rate := by
  simp only [process_source]
  split_ifs <;> simp

lemma process_source_cost_rate_eq (fetch : String → Option ℚ) (home : String)
    (ug : Bool) (g : ℚ) (hz : ℕ) (i : ℕ) (s : SourceInput) :
    (process_source fetch home ug g hz i s).cost_rate = s.cost_pct / 100 := by
  simp only [process_source]
  split_ifs <;> rfl

lemma render_loop_eq_sums (fetch : String → Option ℚ) (home : String)
    (ug : Bool) (g : ℚ) (hz : ℕ) (l : List SourceInput) : ∀ i : ℕ,
    (render_loop fetch home ug g hz i l).1 =
      ((source_outcomes fetch home ug g hz i l).map SourceOutcome.home_value).sum
    ∧ (render_loop fetch home ug g hz i l).2.1 =
      ((source_outcomes fetch home ug g hz i l).map
        (fun o => o.home_value * o.cost_rate)).sum := by
  induction l with
  | nil => intro i; simp [render_loop, source_outcomes]
  | cons s rest ih =>
      intro i
      simp only [render_loop, source_outcomes, List.map_cons, List.sum_cons]
      exact ⟨by rw [(ih (i + 1)).1], by rw [(ih (i + 1)).2]⟩

lemma render_loop_zero_of_zero_amounts (fetch : String → Option ℚ)
    (home : String) (ug : Bool) (g : ℚ) (hz : ℕ) (l : List SourceInput)
    (hl : ∀ s ∈ l, s.raw_amount = 0) : ∀ i : ℕ,
    (render_loop fetch home ug g hz i l).1 = 0 := by
  induction l with
  | nil => intro i; simp [render_loop]
  | cons s rest ih =>
      intro i
      have hs : s.raw_amount = 0 := hl s (List.mem_cons_self s rest)
      have hrest := ih (fun t ht => hl t (List.mem_cons_of_mem s ht)) (i + 1)
      simp only [render_loop]
      rw [process_source_home_value_eq, hs, hrest]
      ring

lemma render_loop_bounds (fetch : String → Option ℚ) (home : String)
    (ug : Bool) (g : ℚ) (hz : ℕ) (l : List SourceInput)
    (hl : ∀ s ∈ l, 0 ≤ s.raw_amount ∧ 0 ≤ s.cost_pct ∧ s.cost_pct ≤ 100) :
    ∀ i : ℕ,
    0 ≤ (render_loop fetch home ug g hz i l).1
    ∧ 0 ≤ (render_loop fetch home ug g hz i l).2.1
    ∧ (render_loop fetch home ug g hz i l).2.1 ≤
        (render_loop fetch home ug g hz i l).1 := by
  induction l with
  | nil => intro i; simp [render_loop]
  | cons s rest ih =>
      intro i
      obtain ⟨hraw, hc0, hc100⟩ := hl s (List.mem_cons_self s rest)
      obtain ⟨h1, h2, h3⟩ := ih (fun t ht => hl t (List.mem_cons_of_mem s ht)) (i + 1)
      have hfx := process_source_fx_pos fetch home ug g hz i s
      have hhv : 0 ≤ (process_source fetch home ug g hz i s).home_value := by
        rw [process_source_home_value_eq]
        exact mul_nonneg hraw hfx.le
      have hcr0 : 0 ≤ (process_source fetch home ug g hz i s).cost_rate := by
        rw [process_source_cost_rate_eq]
        positivity
      have hcr1 : (process_source fetch home ug g hz i s).cost_rate ≤ 1 := by
        rw [process_source_cost_rate_eq]
        linarith
      simp only [render_loop]
      refine ⟨by positivity, by positivity, ?_⟩
      have hterm : (process_source fetch home ug g hz i s).home_value *
          (process_source fetch home ug g hz i s).cost_rate ≤
          (process_source fetch home ug g hz i s).home_value := by
        nlinarith
      exact add_le_add hterm h3

lemma blended_if_bounds (v w : ℚ) (hw0 : 0 ≤ w) (hwle : w ≤ v) :
    0 ≤ (if 0 < v then w / v else 0) ∧ (if 0 < v then w / v else 0) ≤ 1 := by
  split_ifs with hv
  · exact ⟨div_nonneg hw0 hv.le, (div_le_one hv).mpr hwle⟩
  · exact ⟨le_refl 0, zero_le_one⟩

/-- C1: whenever total firm value is positive the compute cycle returns a
result whose WACC is `equity_weight * cost_of_equity + debt_weight *
cost_of_debt * (1 - tax_rate)` with the weights the value shares of the firm;
on Scenario 1 the WACC is exactly 0.07. -/
theorem wacc_formula :
    (∀ inp : Inputs, 0 < total_firm_value inp →
      compute_cycle inp = some (cycle_result inp)
      ∧ wacc inp = equity_value inp / total_firm_value inp * cost_of_equity inp
          + debt_value inp / total_firm_value inp * cost_of_debt inp *
            (1 - inp.tax_rate))
    ∧ wacc scenario1 = 7 / 100 := by
  constructor
  · intro inp h
    refine ⟨?_, rfl⟩
    rw [compute_cycle, if_neg (ne_of_gt h)]
  · norm_num [wacc, equity_weight, debt_weight, cost_of_equity, cost_of_debt,
      equity_value, debt_value, equity_weighted_cost, debt_weighted_cost,
      total_firm_value, tax_shield, scenario1, render_capital_sources,
      render_loop, process_source]

/-- Witness for C1 at Scenario 1: the total firm value 1,000,000 is positive
and the cycle produces the result record with the stated formula. -/
theorem wacc_formula_witness :
    0 < total_firm_value scenario1
    ∧ compute_cycle scenario1 = some (cycle_result scenario1)
    ∧ wacc scenario1 = equity_value scenario1 / total_firm_value scenario1 *
        cost_of_equity scenario1 + debt_value scenario1 /
        total_firm_value scenario1 * cost_of_debt scenario1 *
        (1 - scenario1.tax_rate) := by
  have h : 0 < total_firm_value scenario1 := by
    norm_num [total_firm_value, equity_value, debt_value, scenario1,
      render_capital_sources, render_loop, process_source]
  exact ⟨h, (wacc_formula.1 scenario1 h).1, (wacc_formula.1 scenario1 h).2⟩

/-- C2: the aggregator totals are the sums of the per-source converted values
and value-weighted costs; the blended cost is the guarded quotient
`weighted_cost_sum / total_value` when the total is positive and exactly `0.0`
otherwise, in particular for all-zero-principal source lists. -/
theorem blended_cost_guarded (inp : Inputs) :
    equity_value inp = ((source_outcomes inp.fetch inp.home_currency
      inp.use_fx_growth inp.fx_growth_rate inp.fx_time_horizon 0
      inp.equity_sources).map SourceOutcome.home_value).sum
    ∧ equity_weighted_cost inp = ((source_outcomes inp.fetch inp.home_currency
      inp.use_fx_growth inp.fx_growth_rate inp.fx_time_horizon 0
      inp.equity_sources).map (fun o => o.home_value * o.cost_rate)).sum
    ∧ debt_value inp = ((source_outcomes inp.fetch inp.home_currency
      inp.use_fx_growth inp.fx_growth_rate inp.fx_time_horizon 0
      inp.debt_sources).map SourceOutcome.home_value).sum
    ∧ debt_weighted_cost inp = ((source_outcomes inp.fetch inp.home_currency
      inp.use_fx_growth inp.fx_growth_rate inp.fx_time_horizon 0
      inp.debt_sources).map (fun o => o.home_value * o.cost_rate)).sum
    ∧ (0 < equity_value inp →
        cost_of_equity inp = equity_weighted_cost inp / equity_value inp)
    ∧ (¬ 0 < equity_value inp → cost_of_equity inp = 0)
    ∧ (0 < debt_value inp →
        cost_of_debt inp = debt_weighted_cost inp / debt_value inp)
    ∧ (¬ 0 < debt_value inp → cost_of_debt inp = 0)
    ∧ ((∀ s ∈ inp.equity_sources, s.raw_amount = 0) → cost_of_equity inp = 0)
    ∧ ((∀ s ∈ inp.debt_sources, s.raw_amount = 0) → cost_of_debt inp = 0) := by
  have he := render_loop_eq_sums inp.fetch inp.home_currency inp.use_fx_growth
    inp.fx_growth_rate inp.fx_time_horizon inp.equity_sources 0
  have hd := render_loop_eq_sums inp.fetch inp.home_currency inp.use_fx_growth
    inp.fx_growth_rate inp.fx_time_horizon inp.debt_sources 0
  refine ⟨he.1, he.2, hd.1, hd.2, fun h => ?_, fun h => ?_, fun h => ?_,
    fun h => ?_, fun h => ?_, fun h => ?_⟩
  · rw [cost_of_equity, if_pos h]
  · rw [cost_of_equity, if_neg h]
  · rw [cost_of_debt, if_pos h]
  · rw [cost_of_debt, if_neg h]
  · have hz := render_loop_zero_of_zero_amounts inp.fetch inp.home_currency
      inp.use_fx_growth inp.fx_growth_rate inp.fx_time_horizon
      inp.equity_sources h 0
    rw [cost_of_equity, if_neg]
    rw [equity_value, render_capital_sources, hz]
    exact lt_irrefl 0
  · have hz := render_loop_zero_of_zero_amounts inp.fetch inp.home_currency
      inp.use_fx_growth inp.fx_growth_rate inp.fx_time_horizon
      inp.debt_sources h 0
    rw [cost_of_debt, if_neg]
    rw [debt_value, render_capital_sources, hz]
    exact lt_irrefl 0

/-- Witness for C2 on an all-zero-principal equity list and an empty debt
list: both blended costs are exactly 0. -/
theorem blended_cost_guarded_witness :
    (∀ s ∈ scenario_zero.equity_sources, s.raw_amount = 0)
    ∧ cost_of_equity scenario_zero = 0
    ∧ cost_of_debt scenario_zero = 0 := by
  have hz : ∀ s ∈ scenario_zero.equity_sources, s.raw_amount = 0 := by
    intro s hs
    simp only [scenario_zero, List.mem_singleton] at hs
    rw [hs]
  have hd : ¬ 0 < debt_value scenario_zero := by
    norm_num [debt_value, scenario_zero, render_capital_sources, render_loop]
  exact ⟨hz, (blended_cost_guarded scenario_zero).2.2.2.2.2.2.2.2.1 hz,
    (blended_cost_guarded scenario_zero).2.2.2.2.2.2.2.1 hd⟩

/-- C3: for distinct currencies the resolver follows the fallback chain:
a positive direct quote is the rate; otherwise a positive inverse quote is
inverted; otherwise the rate is `1.0`. -/
theorem fx_fallback_chain (fetch : String → Option ℚ) (home foreign : String)
    (hne : home ≠ foreign) :
    (∀ r : ℚ, fetch (foreign ++ home ++ "=X") = some r → 0 < r →
      (get_fx_rate fetch home foreign).rate = r)
    ∧ (quote_fails (fetch (foreign ++ home ++ "=X")) →
        ∀ p : ℚ, fetch (home ++ foreign ++ "=X") = some p → 0 < p →
          (get_fx_rate fetch home foreign).rate = 1 / p)
    ∧ (quote_fails (fetch (foreign ++ home ++ "=X")) →
        quote_fails (fetch (home ++ foreign ++ "=X")) →
          (get_fx_rate fetch home foreign).rate = 1) := by
  refine ⟨fun r hd hr => ?_, fun hd p hi hp => ?_, fun hd hi => ?_⟩
  · rw [get_fx_rate_of_direct fetch home foreign r hne hd hr]
  · rw [get_fx_rate_of_inverse fetch home foreign p hne hd hi hp]
  · rw [get_fx_rate_of_failure fetch home foreign hne hd hi]

/-- Witness for C3: a source quoting the direct pair EUR to USD at 21/20
resolves to 21/20; a source quoting only the inverse pair at 5/6 resolves to
6/5; a source with no data resolves to 1. -/
theorem fx_fallback_chain_witness :
    (("USD" : String) ≠ "EUR")
    ∧ (get_fx_rate (fun t => if t = "EURUSD=X" then some (21 / 20) else none)
        "USD" "EUR").rate = 21 / 20
    ∧ (get_fx_rate (fun t => if t = "USDEUR=X" then some (5 / 6) else none)
        "USD" "EUR").rate = 6 / 5
    ∧ (get_fx_rate (fun _ => none) "USD" "EUR").rate = 1 := by
  have hne : ("USD" : String) ≠ "EUR" := by decide
  refine ⟨hne, ?_, ?_, ?_⟩
  · exact (fx_fallback_chain _ "USD" "EUR" hne).1 (21 / 20) (by simp) (by norm_num)
  · have h := (fx_fallback_chain
      (fun t => if t = "USDEUR=X" then some (5 / 6) else none) "USD" "EUR" hne).2.1
      (Or.inl (by simp)) (5 / 6) (by simp) (by norm_num)
    rw [h]; norm_num
  · exact (fx_fallback_chain (fun _ => none) "USD" "EUR" hne).2.2
      (Or.inl rfl) (Or.inl rfl)

/-- C4 counterexample: with both quotes unavailable the resolver returns
exactly `1.0` for the distinct pair USD/EUR, so `rate == 1.0` does not imply
`foreign == reporting`; the claimed equivalence is false. -/
theorem fx_parity_iff_counterexample :
    (("USD" : String) ≠ "EUR")
    ∧ (get_fx_rate (fun _ => none) "USD" "EUR").rate = 1 := by
  refine ⟨by decide, ?_⟩
  exact (get_fx_rate_of_failure (fun _ => none) "USD" "EUR" (by decide)
    (Or.inl rfl) (Or.inl rfl)) ▸ rfl

/-- C4 amended: every resolved rate is strictly positive, and when the foreign
currency equals the reporting currency the rate is `1.0` (the converse fails:
a fallback or a genuine parity quote also returns `1.0` for distinct pairs). -/
theorem fx_rate_pos_and_same_currency_one (fetch : String → Option ℚ)
    (home foreign : String) :
    0 < (get_fx_rate fetch home foreign).rate
    ∧ (home = foreign → (get_fx_rate fetch home foreign).rate = 1) := by
  refine ⟨get_fx_rate_rate_pos fetch home foreign, fun h => ?_⟩
  simp [get_fx_rate, h]

/-- Witness for the amended C4 at the concrete pair USD/USD. -/
theorem fx_rate_pos_witness :
    0 < (get_fx_rate (fun _ => none) "USD" "USD").rate
    ∧ (get_fx_rate (fun _ => none) "USD" "USD").rate = 1 :=
  ⟨(fx_rate_pos_and_same_currency_one (fun _ => none) "USD" "USD").1,
    (fx_rate_pos_and_same_currency_one (fun _ => none) "USD" "USD").2 rfl⟩

/-- C5 counterexample: a total market-data failure for USD/EUR and a genuine
parity quote (direct price exactly 1) hand the calling code the same returned
rate `1.0`; the degradation shows up only in the `st.warning` UI stream, never
in the value the caller receives, so the caller cannot distinguish the
placeholder from a real parity rate. -/
theorem fx_degraded_indistinguishable :
    (get_fx_rate (fun _ => none) "USD" "EUR").rate =
      (get_fx_rate (fun t => if t = "EURUSD=X" then some 1 else none)
        "USD" "EUR").rate
    ∧ (get_fx_rate (fun _ => none) "USD" "EUR").st_warnings ≠ []
    ∧ (get_fx_rate (fun t => if t = "EURUSD=X" then some 1 else none)
        "USD" "EUR").st_warnings = [] := by
  have h1 := get_fx_rate_of_failure (fun _ => none) "USD" "EUR" (by decide)
    (Or.inl rfl) (Or.inl rfl)
  have h2 := get_fx_rate_of_direct
    (fun t => if t = "EURUSD=X" then some 1 else none) "USD" "EUR" 1 (by decide)
    (by simp) one_pos
  rw [h1, h2]
  refine ⟨rfl, by simp, rfl⟩

/-- C5 amended: when both the direct and the inverse attempt fail, the
resolver emits an `st.warning` identifying the failed pair and returns `1.0`;
the warning goes to the UI, and the numeric value returned to the calling
code carries no degraded-result flag. -/
theorem fx_total_failure_warns_and_falls_back (fetch : String → Option ℚ)
    (home foreign : String) (hne : home ≠ foreign)
    (hd : quote_fails (fetch (foreign ++ home ++ "=X")))
    (hi : quote_fails (fetch (home ++ foreign ++ "=X"))) :
    get_fx_rate fetch home foreign =
      { rate := 1,
        queried := [foreign ++ home ++ "=X", home ++ foreign ++ "=X"],
        st_warnings := ["Could not fetch FX rate for " ++ foreign ++ "/" ++
          home ++ ". Please enter rate manually."] } :=
  get_fx_rate_of_failure fetch home foreign hne hd hi

/-- Witness for the amended C5 with a market-data source that always fails. -/
theorem fx_total_failure_witness :
    (("USD" : String) ≠ "EUR")
    ∧ get_fx_rate (fun _ => none) "USD" "EUR" =
      { rate := 1, queried := ["EURUSD=X", "USDEUR=X"],
        st_warnings :=
          ["Could not fetch FX rate for EUR/USD. Please enter rate manually."] } := by
  refine ⟨by decide, ?_⟩
  have h := fx_total_failure_warns_and_falls_back (fun _ => none) "USD" "EUR"
    (by decide) (Or.inl rfl) (Or.inl rfl)
  rw [h]
  simp

/-- C6: resolving a currency against itself returns exactly `1.0` with an
empty query list: no market-data call is issued. -/
theorem fx_same_currency_no_call (fetch : String → Option ℚ) (c : String) :
    get_fx_rate fetch c c = { rate := 1, queried := [], st_warnings := [] } := by
  simp [get_fx_rate]

/-- C7: when total firm value is exactly zero the app warns and stops
(`st.stop()`), producing no WACC value. -/
theorem empty_capital_structure (inp : Inputs)
    (h : total_firm_value inp = 0) :
    compute_cycle inp = none := by
  rw [compute_cycle, if_pos h]

/-- Witness for C7 at Scenario 3: no sources at all gives total firm value 0
and no WACC result. -/
theorem empty_capital_structure_witness :
    total_firm_value scenario3 = 0 ∧ compute_cycle scenario3 = none := by
  have h : total_firm_value scenario3 = 0 := by
    norm_num [total_firm_value, equity_value, debt_value, scenario3,
      render_capital_sources, render_loop]
  exact ⟨h, empty_capital_structure scenario3 h⟩

/-- C8: a foreign-currency source whose effective FX input is non-positive is
rejected: the rate is replaced by `1.0`, the conversion uses that substitute,
and an `st.error` naming source `i+1` is emitted.  Unconditionally, the
effective rate actually multiplied into the converted value is strictly
positive. -/
theorem invalid_fx_rate_rejected (fetch : String → Option ℚ) (home : String)
    (ug : Bool) (g : ℚ) (hz : ℕ) (i : ℕ) (s : SourceInput) :
    (s.currency ≠ home → effective_fx_input fetch home ug g hz s ≤ 0 →
      process_source fetch home ug g hz i s =
        { fx_rate := 1, home_value := s.raw_amount * 1,
          cost_rate := s.cost_pct / 100,
          st_errors := ["Invalid FX rate for source " ++ toString (i + 1) ++
            ". Must be > 0."] })
    ∧ 0 < (process_source fetch home ug g hz i s).fx_rate
    ∧ (process_source fetch home ug g hz i s).home_value =
        s.raw_amount * (process_source fetch home ug g hz i s).fx_rate := by
  refine ⟨fun h1 h2 => ?_, process_source_fx_pos fetch home ug g hz i s,
    process_source_home_value_eq fetch home ug g hz i s⟩
  simp only [process_source]
  rw [if_pos h1, if_pos h2]

/-- Witness for C8: a EUR source with a manual override of −2 against home
currency USD is replaced by rate `1.0` with an error naming source 1. -/
theorem invalid_fx_rate_rejected_witness :
    bad_source.currency ≠ "USD"
    ∧ effective_fx_input (fun _ => none) "USD" false 0 1 bad_source ≤ 0
    ∧ process_source (fun _ => none) "USD" false 0 1 0 bad_source =
      { fx_rate := 1, home_value := 1000 * 1, cost_rate := 5 / 100,
        st_errors := ["Invalid FX rate for source 1. Must be > 0."] } := by
  have h1 : bad_source.currency ≠ "USD" := by decide
  have h2 : effective_fx_input (fun _ => none) "USD" false 0 1 bad_source ≤ 0 := by
    norm_num [effective_fx_input, bad_source]
  refine ⟨h1, h2, ?_⟩
  have h := (invalid_fx_rate_rejected (fun _ => none) "USD" false 0 1 0
    bad_source).1 h1 h2
  have hs : "Invalid FX rate for source " ++ toString (0 + 1 : ℕ) ++
      ". Must be > 0." = "Invalid FX rate for source 1. Must be > 0." := by decide
  rw [h, hs]
  simp only [bad_source]

/-- C9 counterexample: the projection of rate 1.05 at 3% over 5 years is
exactly 1.217237778015, which differs from the quoted 1.2174 by more than
the displayed precision of one in the fourth decimal place. -/
theorem project_rate_scenario5_counterexample :
    project_rate (105 / 100) (3 / 100) 5 = 243447555603 / 200000000000
    ∧ (12174 / 10000 : ℚ) - project_rate (105 / 100) (3 / 100) 5 > 1 / 10000 := by
  constructor <;> norm_num [project_rate]

/-- C9 amended: the growth projection computes `rate * (1 + growth) ^ years`;
zero growth over any horizon returns the rate unchanged; rate 1.05 at 3% over
5 years yields approximately 1.2172 (exactly 1.217237778015). -/
theorem project_rate_formula (rate annual_growth : ℚ) (years : ℕ) :
    project_rate rate annual_growth years = rate * (1 + annual_growth) ^ years
    ∧ project_rate rate 0 years = rate
    ∧ project_rate (105 / 100) (3 / 100) 5 = 243447555603 / 200000000000 := by
  refine ⟨rfl, ?_, by norm_num [project_rate]⟩
  simp [project_rate]

/-- C10: with every principal non-negative, every cost percentage in
[0, 100] (so the cost rate is in [0, 1]), the tax rate in [0, 1] and a
positive total firm value, the WACC lies in [0, 1] and neither anomaly branch
fires.  Effective FX rates are strictly positive by the rate validation
(`process_source_fx_pos`), so no hypothesis about them is needed. -/
theorem wacc_in_unit_interval (inp : Inputs)
    (heq : ∀ s ∈ inp.equity_sources,
      0 ≤ s.raw_amount ∧ 0 ≤ s.cost_pct ∧ s.cost_pct ≤ 100)
    (hdebt : ∀ s ∈ inp.debt_sources,
      0 ≤ s.raw_amount ∧ 0 ≤ s.cost_pct ∧ s.cost_pct ≤ 100)
    (htax0 : 0 ≤ inp.tax_rate) (htax1 : inp.tax_rate ≤ 1)
    (htot : 0 < total_firm_value inp) :
    0 ≤ wacc inp ∧ wacc inp ≤ 1 ∧ anomaly_check (wacc inp) = none := by
  obtain ⟨hE0, hEW0, hEWle⟩ := render_loop_bounds inp.fetch inp.home_currency
    inp.use_fx_growth inp.fx_growth_rate inp.fx_time_horizon
    inp.equity_sources heq 0
  obtain ⟨hD0, hDW0, hDWle⟩ := render_loop_bounds inp.fetch inp.home_currency
    inp.use_fx_growth inp.fx_growth_rate inp.fx_time_horizon
    inp.debt_sources hdebt 0
  have hEv : 0 ≤ equity_value inp := hE0
  have hDv : 0 ≤ debt_value inp := hD0
  have hcE : 0 ≤ cost_of_equity inp ∧ cost_of_equity inp ≤ 1 :=
    blended_if_bounds (equity_value inp) (equity_weighted_cost inp) hEW0 hEWle
  have hcD : 0 ≤ cost_of_debt inp ∧ cost_of_debt inp ≤ 1 :=
    blended_if_bounds (debt_value inp) (debt_weighted_cost inp) hDW0 hDWle
  have hsh0 : 0 ≤ tax_shield inp := by rw [tax_shield]; linarith
  have hsh1 : tax_shield inp ≤ 1 := by rw [tax_shield]; linarith
  have hwE0 : 0 ≤ equity_weight inp := div_nonneg hEv htot.le
  have hwD0 : 0 ≤ debt_weight inp := div_nonneg hDv htot.le
  have hsum : equity_weight inp + debt_weight inp = 1 := by
    have hT : equity_value inp + debt_value inp = total_firm_value inp := rfl
    rw [equity_weight, debt_weight, div_add_div_same, hT,
      div_self (ne_of_gt htot)]
  have ht1 : 0 ≤ equity_weight inp * cost_of_equity inp :=
    mul_nonneg hwE0 hcE.1
  have ht2 : 0 ≤ debt_weight inp * cost_of_debt inp * tax_shield inp :=
    mul_nonneg (mul_nonneg hwD0 hcD.1) hsh0
  have hb1 : equity_weight inp * cost_of_equity inp ≤ equity_weight inp :=
    mul_le_of_le_one_right hwE0 hcE.2
  have hcdsh : cost_of_debt inp * tax_shield inp ≤ 1 :=
    mul_le_one₀ hcD.2 hsh0 hsh1
  have hb2 : debt_weight inp * cost_of_debt inp * tax_shield inp ≤
      debt_weight inp := by
    rw [mul_assoc]
    exact mul_le_of_le_one_right hwD0 hcdsh
  have h0w : 0 ≤ wacc inp := by rw [wacc]; linarith
  have h1w : wacc inp ≤ 1 := by rw [wacc]; linarith
  refine ⟨h0w, h1w, ?_⟩
  rw [anomaly_check, if_neg (not_lt.mpr h0w), if_neg (not_lt.mpr h1w)]

/-- Witness for C10 at Scenario 1: all preconditions hold and the resulting
WACC lies in [0, 1] with no anomaly reported. -/
theorem wacc_in_unit_interval_witness :
    0 < total_firm_value scenario1
    ∧ (0 ≤ wacc scenario1 ∧ wacc scenario1 ≤ 1
        ∧ anomaly_check (wacc scenario1) = none) := by
  have heq : ∀ s ∈ scenario1.equity_sources,
      0 ≤ s.raw_amount ∧ 0 ≤ s.cost_pct ∧ s.cost_pct ≤ 100 := by
    intro s hs
    simp only [scenario1, List.mem_singleton] at hs
    rw [hs]
    norm_num
  have hdebt : ∀ s ∈ scenario1.debt_sources,
      0 ≤ s.raw_amount ∧ 0 ≤ s.cost_pct ∧ s.cost_pct ≤ 100 := by
    intro s hs
    simp only [scenario1, List.mem_singleton] at hs
    rw [hs]
    norm_num
  have htot : 0 < total_firm_value scenario1 := by
    norm_num [total_firm_value, equity_value, debt_value, scenario1,
      render_capital_sources, render_loop, process_source]
  exact ⟨htot, wacc_in_unit_interval scenario1 heq hdebt (by norm_num [scenario1])
    (by norm_num [scenario1]) htot⟩

end WACCCalc
